import Mathlib

/-!
Verification of the manticore wire codec core:
`src/io/read.rs`, `src/protocol/error.rs`,
`src/protocol/cerberus/challenge.rs`, `src/protocol/cerberus/firmware_version.rs`.

Bytes are modelled as `Nat` (a `u8` value occupies `0..256`; casts that
truncate are written with an explicit `% 256`).  A `&[u8]` reader is a
`Slice`: a start address (needed for the alignment check of `read_direct`)
plus the list of remaining bytes.  The arena is a bump allocator modelled by
its remaining capacity.  Fallible operations return `Except`.
-/

deriving instance DecidableEq for Except

namespace Manticore

/-- Modelled from the spec: `io::Error` (src/io/mod.rs is not among the
sources).  The two variants used by `src/io/read.rs` are `BufferExhausted`
(reader ran out of bytes mid-read) and `Internal`. -/
inductive IoError where
  | BufferExhausted
  | Internal
deriving DecidableEq, Repr

/-- Modelled from the spec: `wire::Error` (src/protocol/wire.rs is not among
the sources).  §7 lists the error kinds: `BufferExhausted`, `OutOfRange`,
`Internal`, `ResourceLimit`/`OutOfMemory` (arena exhaustion), `Malformed`. -/
inductive WireError where
  | BufferExhausted
  | OutOfRange
  | Internal
  | OutOfMemory
  | Malformed
deriving DecidableEq, Repr

/-- Modelled from the spec: the `From<io::Error> for wire::Error` lifting used
by the `?` operator in the decoders; each io error kind keeps its name. -/
def ioToWire : IoError → WireError
  | .BufferExhausted => .BufferExhausted
  | .Internal => .Internal

/-- A `&[u8]` reader: the address of its first byte plus the bytes remaining.
The address is what `self.as_ptr() as usize` observes in
`<&[u8] as ReadZero>::read_direct`. -/
structure Slice where
  addr : Nat
  data : List Nat
deriving DecidableEq, Repr

/-- Modelled from the spec: the bump arena (src/mem/arena.rs is not among the
sources), reduced to its remaining capacity; §4.1: `alloc_raw` fails with
OutOfMemory when remaining capacity is insufficient (alignment padding is
abstracted away). -/
structure Arena where
  cap : Nat
deriving DecidableEq, Repr

/-- Modelled from the spec: `Arena::alloc_raw(layout)`; returns the arena
after carving `size` bytes out of it, or `none` for OutOfMemory. -/
def Arena.alloc_raw (a : Arena) (size : Nat) : Option Arena :=
  if size ≤ a.cap then some ⟨a.cap - size⟩ else none

/-- Modelled from the spec: `mem::misalign_of(ptr, align)` (src/mem/mod.rs is
not among the sources): how far `ptr` is past the previous `align` boundary. -/
def misalign_of (ptr align : Nat) : Nat := ptr % align

/-- `<&[u8] as Read>::read_bytes` (src/io/read.rs:129-138): copies exactly
`n` bytes out, failing with `BufferExhausted` (and leaving the reader
untouched) if fewer than `n` remain. -/
def Slice.read_bytes (s : Slice) (n : Nat) :
    Except IoError (List Nat) × Slice :=
  if s.data.length < n then (.error .BufferExhausted, s)
  else (.ok (s.data.take n), ⟨s.addr + n, s.data.drop n⟩)

/-- `<&[u8] as Read>::remaining_data` (src/io/read.rs:140-142). -/
def Slice.remaining_data (s : Slice) : Nat := s.data.length

/-- `ReadInt::read_le::<u8>`: reads one byte. -/
def Slice.read_le_u8 (s : Slice) : Except IoError Nat × Slice :=
  match s.read_bytes 1 with
  | (.error e, s') => (.error e, s')
  | (.ok bs, s') => (.ok bs.headI, s')

/-- `ReadInt::read_le::<u16>`: reads two bytes, little-endian. -/
def Slice.read_le_u16 (s : Slice) : Except IoError Nat × Slice :=
  match s.read_bytes 2 with
  | (.error e, s') => (.error e, s')
  | (.ok bs, s') => (.ok (bs.headI + 256 * bs.tail.headI), s')

/-- `<&[u8] as ReadZero>::read_direct` (src/io/read.rs:145-167): checks the
input length, takes the zero-copy split when the buffer is aligned for the
layout, and otherwise copies into the arena; an `alloc_raw` failure is mapped
to `io::Error::BufferExhausted`. -/
def Slice.read_direct (s : Slice) (arena : Arena) (size align : Nat) :
    Except IoError (List Nat) × Slice × Arena :=
  if s.data.length < size then (.error .BufferExhausted, s, arena)
  else if misalign_of s.addr align = 0 then
    (.ok (s.data.take size), ⟨s.addr + size, s.data.drop size⟩, arena)
  else
    match arena.alloc_raw size with
    | none => (.error .BufferExhausted, s, arena)
    | some a' =>
      match s.read_bytes size with
      | (.error e, s') => (.error e, s', a')
      | (.ok bs, s') => (.ok bs, s', a')

/-- The provided (always-copy) implementation of `ReadZero::read_direct`
(src/io/read.rs:71-81): allocate from the arena, then `read_bytes` into the
allocation; an `alloc_raw` failure is mapped to `io::Error::BufferExhausted`. -/
def read_direct_copy (s : Slice) (arena : Arena) (size : Nat) :
    Except IoError (List Nat) × Slice × Arena :=
  match arena.alloc_raw size with
  | none => (.error .BufferExhausted, s, arena)
  | some a' =>
    match s.read_bytes size with
    | (.error e, s') => (.error e, s', a')
    | (.ok bs, s') => (.ok bs, s', a')

/-! Basic stepping lemmas for the read primitives. -/

theorem read_bytes_err (s : Slice) (n : Nat) (h : s.data.length < n) :
    s.read_bytes n = (.error .BufferExhausted, s) := by
  simp [Slice.read_bytes, h]

theorem read_bytes_ok (s : Slice) (n : Nat) (h : n ≤ s.data.length) :
    s.read_bytes n = (.ok (s.data.take n), ⟨s.addr + n, s.data.drop n⟩) := by
  simp [Slice.read_bytes, Nat.not_lt.mpr h]

theorem read_bytes_exact (addr : Nat) (A B : List Nat) (n : Nat)
    (h : A.length = n) :
    Slice.read_bytes ⟨addr, A ++ B⟩ n = (.ok A, ⟨addr + n, B⟩) := by
  subst h
  rw [read_bytes_ok _ _ (by simp)]
  simp

theorem read_le_u8_err (s : Slice) (h : s.data.length < 1) :
    s.read_le_u8 = (.error .BufferExhausted, s) := by
  simp [Slice.read_le_u8, read_bytes_err s 1 h]

theorem read_le_u8_ok (s : Slice) (h : 1 ≤ s.data.length) :
    s.read_le_u8 = (.ok s.data.headI, ⟨s.addr + 1, s.data.tail⟩) := by
  rcases s with ⟨addr, data⟩
  cases data with
  | nil => simp at h
  | cons x rest => simp [Slice.read_le_u8, Slice.read_bytes]

theorem read_le_u8_cons (addr x : Nat) (rest : List Nat) :
    Slice.read_le_u8 ⟨addr, x :: rest⟩ = (.ok x, ⟨addr + 1, rest⟩) := by
  simp [Slice.read_le_u8, Slice.read_bytes]

theorem read_le_u16_err (s : Slice) (h : s.data.length < 2) :
    s.read_le_u16 = (.error .BufferExhausted, s) := by
  simp [Slice.read_le_u16, read_bytes_err s 2 h]

theorem read_le_u16_cons (addr x y : Nat) (rest : List Nat) :
    Slice.read_le_u16 ⟨addr, x :: y :: rest⟩ =
      (.ok (x + 256 * y), ⟨addr + 2, rest⟩) := by
  rw [Slice.read_le_u16, read_bytes_ok _ 2 (by simp)]
  simp

theorem read_direct_err (s : Slice) (a : Arena) (size align : Nat)
    (h : s.data.length < size) :
    s.read_direct a size align = (.error .BufferExhausted, s, a) := by
  simp [Slice.read_direct, h]

theorem read_direct_one_ok (s : Slice) (a : Arena) (size : Nat)
    (h : size ≤ s.data.length) :
    s.read_direct a size 1 =
      (.ok (s.data.take size), ⟨s.addr + size, s.data.drop size⟩, a) := by
  simp [Slice.read_direct, Nat.not_lt.mpr h, misalign_of, Nat.mod_one]

theorem read_direct_one_exact (addr : Nat) (A B : List Nat) (a : Arena)
    (n : Nat) (h : A.length = n) :
    Slice.read_direct ⟨addr, A ++ B⟩ a n 1 = (.ok A, ⟨addr + n, B⟩, a) := by
  subst h
  rw [read_direct_one_ok _ _ _ (by simp)]
  simp

/-! The error taxonomy of src/protocol/error.rs. -/

/-- `RawError` (src/protocol/error.rs:29-34): an 8-bit code plus 4 bytes of
opaque payload (`data` always has length 4 for values built by the codec). -/
structure RawError where
  code : Nat
  data : List Nat
deriving DecidableEq, Repr

/-- `RawError::from_wire` (src/protocol/error.rs:36-47): one code byte, then
four payload bytes. -/
def RawError.from_wire (s : Slice) : Except WireError RawError × Slice :=
  match s.read_le_u8 with
  | (.error e, s') => (.error (ioToWire e), s')
  | (.ok code, s') =>
    match s'.read_bytes 4 with
    | (.error e, s'') => (.error (ioToWire e), s'')
    | (.ok data, s'') => (.ok ⟨code, data⟩, s'')

/-- `RawError::to_wire` (src/protocol/error.rs:49-55): the code byte followed
by the payload; writing to the byte sink cannot fail. -/
def RawError.to_wire (e : RawError) : Except WireError (List Nat) :=
  .ok (e.code :: e.data)

/-- The `SpecificError` trait (src/protocol/error.rs:280-286): a bidirectional
mapping between a message-specific error enumeration and a single byte. -/
class SpecificError (E : Type) where
  from_raw : Nat → Except WireError E
  to_raw : E → Except WireError Nat

/-- `ChallengeError` (src/protocol/error.rs:336-342): the only specific error
of the challenge messages, with code `0x00`. -/
inductive ChallengeError where
  | UnknownChain
deriving DecidableEq, Repr

instance : SpecificError ChallengeError where
  from_raw code :=
    match code with
    | 0 => .ok .UnknownChain
    | _ => .error .OutOfRange
  to_raw e :=
    match e with
    | .UnknownChain => .ok 0

/-- `Error<E>` (src/protocol/error.rs:129-168). -/
inductive Error (E : Type) where
  | Busy
  | ResourceLimit
  | Malformed
  | OutOfRange
  | Internal
  | Specific (e : E)
  | Unspecified (data : List Nat)
  | Unknown (raw : RawError)
deriving DecidableEq, Repr

/-- The match of `<Error<E> as FromWire>::from_wire` on the decoded `RawError`
(src/protocol/error.rs:177-198).  The Rust `match` tries its arms in order;
the ordered arms are rendered here as a guard chain with the same semantics:
`(3, [0,0,0,0])` is Busy; under code 4 a payload `[b,0,0,0]` is a generic
error (unknown `b` is a decode failure), then `[0xff, c, 0, 0]` (necessarily
`c ≠ 0` here, since `c = 0` was caught by the previous arm) resolves a
specific error, and any other payload is `Unspecified`; any other code is
`Unknown`. -/
def Error.from_raw_error {E : Type} [SpecificError E] (raw : RawError) :
    Except WireError (Error E) :=
  if raw.code = 3 ∧ raw.data = [0, 0, 0, 0] then .ok .Busy
  else if raw.code = 4 then
    match raw.data with
    | [d0, d1, d2, d3] =>
      if d1 = 0 ∧ d2 = 0 ∧ d3 = 0 then
        if d0 = 1 then .ok .ResourceLimit
        else if d0 = 2 then .ok .Malformed
        else if d0 = 3 then .ok .OutOfRange
        else if d0 = 4 then .ok .Internal
        else .error .OutOfRange
      else if d0 = 255 ∧ d2 = 0 ∧ d3 = 0 then
        (SpecificError.from_raw d1).map .Specific
      else .ok (.Unspecified [d0, d1, d2, d3])
    | data => .ok (.Unspecified data)
  else .ok (.Unknown raw)

/-- `<Error<E> as FromWire>::from_wire` (src/protocol/error.rs:170-200):
decode a `RawError`, then interpret it. -/
def Error.from_wire {E : Type} [SpecificError E] (s : Slice) :
    Except WireError (Error E) × Slice :=
  match RawError.from_wire s with
  | (.error e, s') => (.error e, s')
  | (.ok raw, s') => (Error.from_raw_error raw, s')

/-- The `RawError` each variant encodes to, from `<Error<E> as ToWire>::to_wire`
(src/protocol/error.rs:202-238). -/
def Error.to_raw_error {E : Type} [SpecificError E] :
    Error E → Except WireError RawError
  | .Busy => .ok ⟨3, [0, 0, 0, 0]⟩
  | .ResourceLimit => .ok ⟨4, [1, 0, 0, 0]⟩
  | .Malformed => .ok ⟨4, [2, 0, 0, 0]⟩
  | .OutOfRange => .ok ⟨4, [3, 0, 0, 0]⟩
  | .Internal => .ok ⟨4, [4, 0, 0, 0]⟩
  | .Specific e => (SpecificError.to_raw e).map (fun c => ⟨4, [255, c, 0, 0]⟩)
  | .Unspecified data => .ok ⟨4, data⟩
  | .Unknown raw => .ok raw

/-- `<Error<E> as ToWire>::to_wire` (src/protocol/error.rs:202-238): build the
`RawError` and serialize it. -/
def Error.to_wire {E : Type} [SpecificError E] (e : Error E) :
    Except WireError (List Nat) :=
  match e.to_raw_error with
  | .error err => .error err
  | .ok raw => raw.to_wire

/-- `From<OutOfMemory> for Error<E>` (src/protocol/error.rs:240-244): an
arena out-of-memory condition converts to `Error::ResourceLimit`. -/
def Error.from_out_of_memory {E : Type} : Error E := .ResourceLimit

/-- Round-trip at the byte level: encoding succeeds and decoding the produced
bytes (from a fresh reader) yields the value back. -/
def error_round_trip (e : Error ChallengeError) : Prop :=
  match e.to_wire with
  | .ok bs => (Error.from_wire (E := ChallengeError) ⟨0, bs⟩).1 = .ok e
  | .error _ => False

/-! The challenge command (src/protocol/cerberus/challenge.rs). -/

/-- `ChallengeRequest` (src/protocol/cerberus/challenge.rs:28-39): slot plus a
32-byte nonce (`nonce.length = 32` for values built by the codec). -/
structure ChallengeRequest where
  slot : Nat
  nonce : List Nat
deriving DecidableEq, Repr

/-- `ChallengeRequest::from_wire` (src/protocol/cerberus/challenge.rs:41-46):
slot byte, a discarded reserved byte, then `read_object::<[u8; 32]>` (size 32,
alignment 1). -/
def ChallengeRequest.from_wire (s : Slice) (a : Arena) :
    Except WireError ChallengeRequest × Slice × Arena :=
  match s.read_le_u8 with
  | (.error e, s1) => (.error (ioToWire e), s1, a)
  | (.ok slot, s1) =>
    match s1.read_le_u8 with
    | (.error e, s2) => (.error (ioToWire e), s2, a)
    | (.ok _, s2) =>
      match s2.read_direct a 32 1 with
      | (.error e, s3, a3) => (.error (ioToWire e), s3, a3)
      | (.ok nonce, s3, a3) => (.ok ⟨slot, nonce⟩, s3, a3)

/-- `ChallengeRequest::to_wire` (src/protocol/cerberus/challenge.rs:48-53):
slot, a zero reserved byte, then the nonce. -/
def ChallengeRequest.to_wire (req : ChallengeRequest) :
    Except WireError (List Nat) :=
  .ok (req.slot :: 0 :: req.nonce)

/-- `ChallengeResponseTbs` (src/protocol/cerberus/challenge.rs:99-128): the
signed portion of the challenge response (`nonce.length = 32` and
`pmr0.length ≤ 255` for values built by the codec). -/
structure ChallengeResponseTbs where
  slot : Nat
  slot_mask : Nat
  protocol_range : Nat × Nat
  nonce : List Nat
  pmr0_components : Nat
  pmr0 : List Nat
deriving DecidableEq, Repr

/-- `ChallengeResponseTbs::as_iovec_with` (src/protocol/cerberus/challenge.rs:136-154):
runs `f` on the four spans whose concatenation is the to-be-signed byte
sequence; `self.pmr0.len() as u8` truncates to the low 8 bits. -/
def ChallengeResponseTbs.as_iovec_with {R : Type} (t : ChallengeResponseTbs)
    (f : List (List Nat) → R) : R :=
  f [[t.slot, t.slot_mask, t.protocol_range.1, t.protocol_range.2, 0, 0],
     t.nonce,
     [t.pmr0_components, t.pmr0.length % 256],
     t.pmr0]

/-- `ChallengeResponseTbs::from_wire` (src/protocol/cerberus/challenge.rs:157-183):
four header bytes, a discarded reserved `u16`, the 32-byte nonce, the
component count, the 1-byte pmr0 length, then that many pmr0 bytes
(`read_slice::<u8>` has alignment 1). -/
def ChallengeResponseTbs.from_wire (s : Slice) (a : Arena) :
    Except WireError ChallengeResponseTbs × Slice × Arena :=
  match s.read_le_u8 with
  | (.error e, s1) => (.error (ioToWire e), s1, a)
  | (.ok slot, s1) =>
  match s1.read_le_u8 with
  | (.error e, s2) => (.error (ioToWire e), s2, a)
  | (.ok slot_mask, s2) =>
  match s2.read_le_u8 with
  | (.error e, s3) => (.error (ioToWire e), s3, a)
  | (.ok min_version, s3) =>
  match s3.read_le_u8 with
  | (.error e, s4) => (.error (ioToWire e), s4, a)
  | (.ok max_version, s4) =>
  match s4.read_le_u16 with
  | (.error e, s5) => (.error (ioToWire e), s5, a)
  | (.ok _, s5) =>
  match s5.read_direct a 32 1 with
  | (.error e, s6, a6) => (.error (ioToWire e), s6, a6)
  | (.ok nonce, s6, a6) =>
  match s6.read_le_u8 with
  | (.error e, s7) => (.error (ioToWire e), s7, a6)
  | (.ok pmr0_components, s7) =>
  match s7.read_le_u8 with
  | (.error e, s8) => (.error (ioToWire e), s8, a6)
  | (.ok pmr0_len, s8) =>
  match s8.read_direct a6 pmr0_len 1 with
  | (.error e, s9, a9) => (.error (ioToWire e), s9, a9)
  | (.ok pmr0, s9, a9) =>
    (.ok ⟨slot, slot_mask, (min_version, max_version), nonce,
          pmr0_components, pmr0⟩, s9, a9)

/-- `ChallengeResponseTbs::to_wire` (src/protocol/cerberus/challenge.rs:185-203):
the four header bytes, a zero reserved `u16`, the nonce, the component count,
the pmr0 length (failing with `OutOfRange` if it does not fit in a byte,
from `try_into`), then the pmr0 bytes. -/
def ChallengeResponseTbs.to_wire (t : ChallengeResponseTbs) :
    Except WireError (List Nat) :=
  if t.pmr0.length ≤ 255 then
    .ok ([t.slot, t.slot_mask, t.protocol_range.1, t.protocol_range.2, 0, 0]
      ++ t.nonce ++ [t.pmr0_components, t.pmr0.length] ++ t.pmr0)
  else .error .OutOfRange

/-- `ChallengeResponse` (src/protocol/cerberus/challenge.rs:55-71): the TBS
block plus a signature that occupies the rest of the message. -/
structure ChallengeResponse where
  tbs : ChallengeResponseTbs
  signature : List Nat
deriving DecidableEq, Repr

/-- `ChallengeResponse::from_wire` (src/protocol/cerberus/challenge.rs:73-77):
the TBS block, then `read_slice::<u8>(r.remaining_data())`. -/
def ChallengeResponse.from_wire (s : Slice) (a : Arena) :
    Except WireError ChallengeResponse × Slice × Arena :=
  match ChallengeResponseTbs.from_wire s a with
  | (.error e, s', a') => (.error e, s', a')
  | (.ok tbs, s', a') =>
    match s'.read_direct a' s'.remaining_data 1 with
    | (.error e, s'', a'') => (.error (ioToWire e), s'', a'')
    | (.ok sig, s'', a'') => (.ok ⟨tbs, sig⟩, s'', a'')

/-- `ChallengeResponse::to_wire` (src/protocol/cerberus/challenge.rs:79-83):
the TBS bytes followed by the signature bytes. -/
def ChallengeResponse.to_wire (r : ChallengeResponse) :
    Except WireError (List Nat) :=
  match r.tbs.to_wire with
  | .error e => .error e
  | .ok bs => .ok (bs ++ r.signature)

/-! The firmware-version command (src/protocol/cerberus/firmware_version.rs). -/

/-- `FirmwareVersionRequest` (src/protocol/cerberus/firmware_version.rs:19-24). -/
structure FirmwareVersionRequest where
  index : Nat
deriving DecidableEq, Repr

/-- `FirmwareVersionRequest::from_wire`
(src/protocol/cerberus/firmware_version.rs:26-29): one index byte. -/
def FirmwareVersionRequest.from_wire (s : Slice) (a : Arena) :
    Except WireError FirmwareVersionRequest × Slice × Arena :=
  match s.read_le_u8 with
  | (.error e, s') => (.error (ioToWire e), s', a)
  | (.ok index, s') => (.ok ⟨index⟩, s', a)

/-- `FirmwareVersionRequest::to_wire`
(src/protocol/cerberus/firmware_version.rs:31-34). -/
def FirmwareVersionRequest.to_wire (r : FirmwareVersionRequest) :
    Except WireError (List Nat) :=
  .ok [r.index]

/-- `FirmwareVersionResponse` (src/protocol/cerberus/firmware_version.rs:36-45):
a 32-byte version (`version.length = 32` for values built by the codec). -/
structure FirmwareVersionResponse where
  version : List Nat
deriving DecidableEq, Repr

/-- `FirmwareVersionResponse::from_wire`
(src/protocol/cerberus/firmware_version.rs:47-51): allocate a 32-byte buffer
from the arena (an out-of-memory failure surfaces as the wire-level
out-of-memory error), then read 32 bytes into it. -/
def FirmwareVersionResponse.from_wire (s : Slice) (a : Arena) :
    Except WireError FirmwareVersionResponse × Slice × Arena :=
  match a.alloc_raw 32 with
  | none => (.error .OutOfMemory, s, a)
  | some a' =>
    match s.read_bytes 32 with
    | (.error e, s') => (.error (ioToWire e), s', a')
    | (.ok version, s') => (.ok ⟨version⟩, s', a')

/-- `FirmwareVersionResponse::to_wire`
(src/protocol/cerberus/firmware_version.rs:53-56). -/
def FirmwareVersionResponse.to_wire (r : FirmwareVersionResponse) :
    Except WireError (List Nat) :=
  .ok r.version

/-! Helper lemmas. -/

theorem take_len_add (X Y : List Nat) (m : Nat) :
    (X ++ Y).take (X.length + m) = X ++ Y.take m := by
  induction X with
  | nil => simp
  | cons x xs ih => simp [Nat.succ_add, ih]

/-- Decoding an `Error` from a five-byte buffer reduces to interpreting the
corresponding `RawError`. -/
theorem error_from_wire_five (addr c d0 d1 d2 d3 : Nat) :
    (Error.from_wire (E := ChallengeError) ⟨addr, [c, d0, d1, d2, d3]⟩).1
      = Error.from_raw_error ⟨c, [d0, d1, d2, d3]⟩ := by
  simp [Error.from_wire, RawError.from_wire, Slice.read_le_u8, Slice.read_bytes]

/-- Under code 4, a payload that collides with neither the generic arm
`[b,0,0,0]` nor the specific arm `[0xff,c,0,0]` decodes to `Unspecified`. -/
theorem from_raw_error_unspecified (d0 d1 d2 d3 : Nat)
    (h1 : ¬(d1 = 0 ∧ d2 = 0 ∧ d3 = 0)) (h2 : ¬(d0 = 255 ∧ d2 = 0 ∧ d3 = 0)) :
    Error.from_raw_error (E := ChallengeError) ⟨4, [d0, d1, d2, d3]⟩
      = .ok (.Unspecified [d0, d1, d2, d3]) := by
  simp only [Error.from_raw_error]
  split_ifs <;> simp_all

/-- For `ChallengeError`, every nonzero specific code is rejected. -/
theorem from_raw_specific_err (d : Nat) (h : d ≠ 0) :
    SpecificError.from_raw (E := ChallengeError) d = .error .OutOfRange := by
  cases d with
  | zero => exact absurd rfl h
  | succ n => rfl

/-- Exactly which code-4 payloads are decode failures (for
`E = ChallengeError`, whose only valid specific code is 0). -/
theorem from_raw_error_err_iff (d0 d1 d2 d3 : Nat) :
    (Error.from_raw_error (E := ChallengeError) ⟨4, [d0, d1, d2, d3]⟩
        = .error .OutOfRange)
      ↔ ((d1 = 0 ∧ d2 = 0 ∧ d3 = 0 ∧ d0 ≠ 1 ∧ d0 ≠ 2 ∧ d0 ≠ 3 ∧ d0 ≠ 4)
         ∨ (d0 = 255 ∧ d1 ≠ 0 ∧ d2 = 0 ∧ d3 = 0)) := by
  by_cases hgen : d1 = 0 ∧ d2 = 0 ∧ d3 = 0
  · obtain ⟨e1, e2, e3⟩ := hgen
    subst e1; subst e2; subst e3
    by_cases h1 : d0 = 1
    · subst h1; simp [Error.from_raw_error]
    · by_cases h2 : d0 = 2
      · subst h2; simp [Error.from_raw_error]
      · by_cases h3 : d0 = 3
        · subst h3; simp [Error.from_raw_error]
        · by_cases h4 : d0 = 4
          · subst h4; simp [Error.from_raw_error]
          · simp [Error.from_raw_error, h1, h2, h3, h4]
  · by_cases hspec : d0 = 255 ∧ d2 = 0 ∧ d3 = 0
    · obtain ⟨e0, e2, e3⟩ := hspec
      subst e0; subst e2; subst e3
      have hd1 : d1 ≠ 0 := fun h => hgen ⟨h, rfl, rfl⟩
      simp [Error.from_raw_error, hd1, from_raw_specific_err d1 hd1, Except.map]
    · rw [from_raw_error_unspecified d0 d1 d2 d3 hgen hspec]
      constructor
      · intro h; exact absurd h (by simp)
      · rintro (⟨e1, e2, e3, _⟩ | ⟨e0, _, e2, e3⟩)
        · exact absurd ⟨e1, e2, e3⟩ hgen
        · exact absurd ⟨e0, e2, e3⟩ hspec

/-- A raw error whose code matches neither the Busy arm nor the code-4 arms
decodes to `Unknown` of itself. -/
theorem from_raw_error_unknown (c : Nat) (data : List Nat)
    (hc3 : ¬(c = 3 ∧ data = [0, 0, 0, 0])) (hc4 : c ≠ 4) :
    Error.from_raw_error (E := ChallengeError) ⟨c, data⟩
      = .ok (.Unknown ⟨c, data⟩) := by
  simp only [Error.from_raw_error]
  split_ifs
  all_goals simp_all

/-- Claim C1 (counterexample): `Specific(UnknownChain)` encodes to
`[4, 0xff, 0, 0, 0]`, but decoding those bytes hits the generic
`[b, 0, 0, 0]` arm first (with `b = 0xff`) and fails with `OutOfRange`
instead of round-tripping. -/
theorem c1_error_round_trip_counterexample :
    Error.to_wire (Error.Specific ChallengeError.UnknownChain)
        = .ok [4, 255, 0, 0, 0]
      ∧ (Error.from_wire (E := ChallengeError) ⟨0, [4, 255, 0, 0, 0]⟩).1
        = .error .OutOfRange := by
  decide

/-- Claim C1 (amended): decode-after-encode is the identity for the five
generic variants; for `Unspecified(data)` whenever `data` collides with
neither the generic pattern `[b,0,0,0]` nor the specific pattern
`[0xff,c,0,0]`; and every `RawError` matching none of the defined patterns
decodes to `Unknown(raw)`, whose re-encoding reproduces the identical raw
bytes.  (`Specific` values and the colliding `Unspecified`/`Unknown`
payloads do not round-trip.) -/
theorem c1_error_round_trip_amended :
    (error_round_trip .Busy ∧ error_round_trip .ResourceLimit
      ∧ error_round_trip .Malformed ∧ error_round_trip .OutOfRange
      ∧ error_round_trip .Internal)
    ∧ (∀ d0 d1 d2 d3 : Nat, ¬(d1 = 0 ∧ d2 = 0 ∧ d3 = 0) →
        ¬(d0 = 255 ∧ d2 = 0 ∧ d3 = 0) →
        error_round_trip (.Unspecified [d0, d1, d2, d3]))
    ∧ (∀ (c : Nat) (data : List Nat), data.length = 4 →
        ¬(c = 3 ∧ data = [0, 0, 0, 0]) → c ≠ 4 →
        (Error.from_wire (E := ChallengeError) ⟨0, c :: data⟩).1
            = .ok (.Unknown ⟨c, data⟩)
          ∧ Error.to_wire (Error.Unknown (E := ChallengeError) ⟨c, data⟩)
            = .ok (c :: data)) := by
  refine ⟨⟨?_, ?_, ?_, ?_, ?_⟩, ?_, ?_⟩
  · show (Error.from_wire (E := ChallengeError) ⟨0, [3, 0, 0, 0, 0]⟩).1
      = .ok .Busy
    decide
  · show (Error.from_wire (E := ChallengeError) ⟨0, [4, 1, 0, 0, 0]⟩).1
      = .ok .ResourceLimit
    decide
  · show (Error.from_wire (E := ChallengeError) ⟨0, [4, 2, 0, 0, 0]⟩).1
      = .ok .Malformed
    decide
  · show (Error.from_wire (E := ChallengeError) ⟨0, [4, 3, 0, 0, 0]⟩).1
      = .ok .OutOfRange
    decide
  · show (Error.from_wire (E := ChallengeError) ⟨0, [4, 4, 0, 0, 0]⟩).1
      = .ok .Internal
    decide
  · intro d0 d1 d2 d3 h1 h2
    show (Error.from_wire (E := ChallengeError) ⟨0, [4, d0, d1, d2, d3]⟩).1
      = .ok (.Unspecified [d0, d1, d2, d3])
    rw [error_from_wire_five]
    exact from_raw_error_unspecified d0 d1 d2 d3 h1 h2
  · intro c data hlen hc3 hc4
    rcases data with _ | ⟨a0, _ | ⟨a1, _ | ⟨a2, _ | ⟨a3, _ | ⟨a4, rest⟩⟩⟩⟩⟩
    · simp at hlen
    · simp at hlen
    · simp at hlen
    · simp at hlen
    · constructor
      · rw [show (c :: [a0, a1, a2, a3] : List Nat) = [c, a0, a1, a2, a3]
              from rfl, error_from_wire_five]
        exact from_raw_error_unknown c [a0, a1, a2, a3] hc3 hc4
      · rfl
    · simp at hlen

/-- Claim C1 (witness): the amended theorem applied to the raw error with
code 7 and payload `[1, 2, 3, 4]`, which matches no defined pattern. -/
theorem c1_error_round_trip_witness :
    (Error.from_wire (E := ChallengeError) ⟨0, [7, 1, 2, 3, 4]⟩).1
        = .ok (.Unknown ⟨7, [1, 2, 3, 4]⟩)
      ∧ Error.to_wire (Error.Unknown (E := ChallengeError) ⟨7, [1, 2, 3, 4]⟩)
        = .ok [7, 1, 2, 3, 4] :=
  c1_error_round_trip_amended.2.2 7 [1, 2, 3, 4] (by decide) (by decide)
    (by decide)

/-- Claim C2 (counterexample): the payload `[5, 0, 0, 0]` under code 4 has its
first byte outside `{1,2,3,4}` and zero remaining bytes, yet decoding fails
with `OutOfRange` instead of yielding `Unspecified([5,0,0,0])`. -/
theorem c2_decode_policy_counterexample :
    (Error.from_wire (E := ChallengeError) ⟨0, [4, 5, 0, 0, 0]⟩).1
      = .error .OutOfRange := by
  decide

/-- Claim C2 (amended): under code 4, a decode failure (`OutOfRange`) occurs
exactly for the payloads `[b,0,0,0]` with `b ∉ {1,2,3,4}` (the whole generic
arm, not only a reserved sub-space) and for the specific-pattern payloads
`[0xff,c,0,0]` whose code `c` the specific-error table rejects (for
`ChallengeError`: every `c ≠ 0`); every code-4 payload matching neither
pattern is preserved as `Unspecified(payload)`. -/
theorem c2_decode_policy_amended (d0 d1 d2 d3 : Nat) :
    ((Error.from_raw_error (E := ChallengeError) ⟨4, [d0, d1, d2, d3]⟩
        = .error .OutOfRange)
      ↔ ((d1 = 0 ∧ d2 = 0 ∧ d3 = 0 ∧ d0 ≠ 1 ∧ d0 ≠ 2 ∧ d0 ≠ 3 ∧ d0 ≠ 4)
         ∨ (d0 = 255 ∧ d1 ≠ 0 ∧ d2 = 0 ∧ d3 = 0)))
    ∧ (¬(d1 = 0 ∧ d2 = 0 ∧ d3 = 0) → ¬(d0 = 255 ∧ d2 = 0 ∧ d3 = 0) →
        Error.from_raw_error (E := ChallengeError) ⟨4, [d0, d1, d2, d3]⟩
          = .ok (.Unspecified [d0, d1, d2, d3])) :=
  ⟨from_raw_error_err_iff d0 d1 d2 d3,
   from_raw_error_unspecified d0 d1 d2 d3⟩

/-- Claim C2 (witness): the amended theorem applied to payload `[9,9,9,9]`,
which matches neither pattern and decodes to `Unspecified`. -/
theorem c2_decode_policy_witness :
    Error.from_raw_error (E := ChallengeError) ⟨4, [9, 9, 9, 9]⟩
      = .ok (.Unspecified [9, 9, 9, 9]) :=
  (c2_decode_policy_amended 9 9 9 9).2 (by decide) (by decide)

/-- Claim C3 (counterexample): a misaligned reader over 4 remaining bytes
with an exhausted arena: `read_direct` reports `BufferExhausted`, which is
not the out-of-memory/resource-limit report. -/
theorem c3_arena_exhaustion_counterexample :
    (Slice.read_direct ⟨1, [0, 0, 0, 0]⟩ ⟨0⟩ 4 4).1
        = .error .BufferExhausted
      ∧ ioToWire .BufferExhausted ≠ .OutOfMemory := by
  decide

/-- Claim C3 (amended): when the arena is exhausted while enough input bytes
remain, both the `&[u8]` implementation of `read_direct` (on the misaligned
path, the only one that allocates) and the always-copy default implementation
report `BufferExhausted`, not `ResourceLimit`; the
`From<OutOfMemory> for Error<E>` conversion to `ResourceLimit` exists but is
not invoked on this path. -/
theorem c3_arena_exhaustion_amended (s : Slice) (a : Arena) (size align : Nat)
    (hin : size ≤ s.data.length) (hmis : misalign_of s.addr align ≠ 0)
    (hoom : a.alloc_raw size = none) :
    (s.read_direct a size align).1 = .error .BufferExhausted
    ∧ (read_direct_copy s a size).1 = .error .BufferExhausted
    ∧ (Error.from_out_of_memory (E := ChallengeError)) = .ResourceLimit := by
  unfold Slice.read_direct read_direct_copy
  simp [Nat.not_lt.mpr hin, hmis, hoom, Error.from_out_of_memory]

/-- Claim C3 (witness): the amended theorem at the concrete counterexample
input. -/
theorem c3_arena_exhaustion_witness :
    (Slice.read_direct ⟨1, [0, 0, 0, 0]⟩ ⟨0⟩ 4 4).1 = .error .BufferExhausted
    ∧ (read_direct_copy ⟨1, [0, 0, 0, 0]⟩ ⟨0⟩ 4).1 = .error .BufferExhausted
    ∧ (Error.from_out_of_memory (E := ChallengeError)) = .ResourceLimit :=
  c3_arena_exhaustion_amended ⟨1, [0, 0, 0, 0]⟩ ⟨0⟩ 4 4 (by decide)
    (by decide) (by decide)

/-- Claim C5 (confirmed): whenever `ChallengeResponseTbs::to_wire` succeeds,
the concatenation, in order, of the four spans `as_iovec_with` passes to its
callback is byte-for-byte the sequence `to_wire` writes. -/
theorem c5_tbs_iovec_matches_to_wire (t : ChallengeResponseTbs)
    (bs : List Nat) (h : t.to_wire = .ok bs) :
    t.as_iovec_with List.flatten = bs := by
  unfold ChallengeResponseTbs.to_wire at h
  rcases le_or_lt t.pmr0.length 255 with hlen | hlen
  · rw [if_pos hlen] at h
    simp only [Except.ok.injEq] at h
    subst h
    unfold ChallengeResponseTbs.as_iovec_with
    simp [Nat.mod_eq_of_lt (by omega : t.pmr0.length < 256)]
  · rw [if_neg (by omega)] at h
    exact absurd h (by simp)

/-- Claim C5 (witness): the theorem at a concrete TBS value with a three-byte
PMR0. -/
theorem c5_tbs_iovec_witness :
    ChallengeResponseTbs.as_iovec_with
        ⟨1, 2, (3, 4), List.replicate 32 7, 9, [1, 2, 3]⟩ List.flatten
      = [1, 2, 3, 4, 0, 0] ++ List.replicate 32 7 ++ [9, 3] ++ [1, 2, 3] :=
  c5_tbs_iovec_matches_to_wire
    ⟨1, 2, (3, 4), List.replicate 32 7, 9, [1, 2, 3]⟩
    ([1, 2, 3, 4, 0, 0] ++ List.replicate 32 7 ++ [9, 3] ++ [1, 2, 3])
    (by decide)

/-- Claim C6 (confirmed): for a `&[u8]` reader and an arena with sufficient
capacity, `read_direct` is observationally the always-copy fallback: the
result and the final reader coincide with `read_direct_copy`'s, it succeeds
exactly when `size` bytes remain, returns the next `size` input bytes, and
advances the reader by exactly `size` bytes — on the aligned zero-copy path
and the misaligned copy path alike. -/
theorem c6_read_direct_equiv_copy (s : Slice) (arena : Arena)
    (size align : Nat) (hcap : size ≤ arena.cap) :
    (s.read_direct arena size align).1 = (read_direct_copy s arena size).1
    ∧ (s.read_direct arena size align).2.1 = (read_direct_copy s arena size).2.1
    ∧ (size ≤ s.data.length →
        (s.read_direct arena size align).1 = .ok (s.data.take size)
        ∧ (s.read_direct arena size align).2.1
            = ⟨s.addr + size, s.data.drop size⟩)
    ∧ (s.data.length < size →
        (s.read_direct arena size align).1 = .error .BufferExhausted) := by
  have halloc : arena.alloc_raw size = some ⟨arena.cap - size⟩ := by
    simp [Arena.alloc_raw, hcap]
  unfold Slice.read_direct read_direct_copy
  rw [halloc]
  by_cases hlen : s.data.length < size
  · rw [read_bytes_err s size hlen]
    simp [hlen]
  · push_neg at hlen
    rw [read_bytes_ok s size hlen]
    by_cases hal : misalign_of s.addr align = 0 <;>
      simp [Nat.not_lt.mpr hlen, hal]

/-- Claim C6 (witness): the theorem at a four-byte buffer, size 2, align 2,
capacity 8. -/
theorem c6_read_direct_equiv_copy_witness :
    (Slice.read_direct ⟨0, [1, 2, 3, 4]⟩ ⟨8⟩ 2 2).1
        = (read_direct_copy ⟨0, [1, 2, 3, 4]⟩ ⟨8⟩ 2).1
    ∧ (Slice.read_direct ⟨0, [1, 2, 3, 4]⟩ ⟨8⟩ 2 2).2.1
        = (read_direct_copy ⟨0, [1, 2, 3, 4]⟩ ⟨8⟩ 2).2.1
    ∧ (2 ≤ (Slice.mk 0 [1, 2, 3, 4]).data.length →
        (Slice.read_direct ⟨0, [1, 2, 3, 4]⟩ ⟨8⟩ 2 2).1
            = .ok ((Slice.mk 0 [1, 2, 3, 4]).data.take 2)
        ∧ (Slice.read_direct ⟨0, [1, 2, 3, 4]⟩ ⟨8⟩ 2 2).2.1
            = ⟨0 + 2, (Slice.mk 0 [1, 2, 3, 4]).data.drop 2⟩)
    ∧ ((Slice.mk 0 [1, 2, 3, 4]).data.length < 2 →
        (Slice.read_direct ⟨0, [1, 2, 3, 4]⟩ ⟨8⟩ 2 2).1
            = .error .BufferExhausted) :=
  c6_read_direct_equiv_copy ⟨0, [1, 2, 3, 4]⟩ ⟨8⟩ 2 2 (by decide)

set_option maxRecDepth 4000 in
/-- Claim C7 (confirmed): the Challenge request with slot 1 and a nonce of
32 bytes of 0x77 encodes to exactly 0x01, 0x00, then the 32 nonce bytes —
the reserved byte is written as zero. -/
theorem c7_challenge_request_encoding :
    ChallengeRequest.to_wire ⟨1, List.replicate 32 0x77⟩
      = .ok ([0x01, 0x00] ++ List.replicate 32 0x77) := by
  rfl

/-- Claim C8 (confirmed): when `pmr0` is longer than 255 bytes,
`ChallengeResponseTbs::to_wire` fails with `OutOfRange` (the length does not
fit the one-byte length field), while `as_iovec_with` does not fail and emits
the length truncated to its low 8 bits. -/
theorem c8_overlong_pmr0 (t : ChallengeResponseTbs)
    (h : 255 < t.pmr0.length) :
    t.to_wire = .error .OutOfRange
    ∧ t.as_iovec_with List.flatten
      = [t.slot, t.slot_mask, t.protocol_range.1, t.protocol_range.2, 0, 0]
        ++ t.nonce ++ [t.pmr0_components, t.pmr0.length % 256] ++ t.pmr0 := by
  constructor
  · unfold ChallengeResponseTbs.to_wire
    rw [if_neg (by omega)]
  · unfold ChallengeResponseTbs.as_iovec_with
    simp

set_option maxRecDepth 8000 in
/-- Claim C8 (witness): the theorem at a TBS value whose PMR0 has 256 bytes;
the truncated length byte is 0. -/
theorem c8_overlong_pmr0_witness :
    ChallengeResponseTbs.to_wire
        ⟨1, 2, (3, 4), List.replicate 32 7, 9, List.replicate 256 5⟩
      = .error .OutOfRange
    ∧ ChallengeResponseTbs.as_iovec_with
        ⟨1, 2, (3, 4), List.replicate 32 7, 9, List.replicate 256 5⟩
        List.flatten
      = [1, 2, 3, 4, 0, 0] ++ List.replicate 32 7
        ++ [9, (List.replicate 256 (5 : Nat)).length % 256]
        ++ List.replicate 256 5 :=
  c8_overlong_pmr0 ⟨1, 2, (3, 4), List.replicate 32 7, 9, List.replicate 256 5⟩
    (by simp)

/-- Claim C9 (confirmed): `<&[u8] as Read>::read_bytes` is atomic on failure:
with fewer than `n` bytes it returns `BufferExhausted` and leaves the reader
unchanged; on success the remaining byte count decreases by exactly `n`. -/
theorem c9_read_bytes_atomic (s : Slice) (n : Nat) :
    (s.data.length < n → s.read_bytes n = (.error .BufferExhausted, s))
    ∧ (n ≤ s.data.length →
        (s.read_bytes n).1 = .ok (s.data.take n)
        ∧ (s.read_bytes n).2.remaining_data + n = s.remaining_data) := by
  constructor
  · intro h
    exact read_bytes_err s n h
  · intro h
    rw [read_bytes_ok s n h]
    refine ⟨rfl, ?_⟩
    simp [Slice.remaining_data]
    omega

/-- Claim C9 (witness): the theorem at a three-byte reader, with `n = 5`
(failure, reader untouched) and `n = 2` (success, remaining shrinks by 2). -/
theorem c9_read_bytes_atomic_witness :
    Slice.read_bytes ⟨0, [1, 2, 3]⟩ 5 = (.error .BufferExhausted, ⟨0, [1, 2, 3]⟩)
    ∧ ((Slice.read_bytes ⟨0, [1, 2, 3]⟩ 2).1
          = .ok ((Slice.mk 0 [1, 2, 3]).data.take 2)
        ∧ (Slice.read_bytes ⟨0, [1, 2, 3]⟩ 2).2.remaining_data + 2
          = (Slice.mk 0 [1, 2, 3]).remaining_data) :=
  ⟨(c9_read_bytes_atomic ⟨0, [1, 2, 3]⟩ 5).1 (by decide),
   (c9_read_bytes_atomic ⟨0, [1, 2, 3]⟩ 2).2 (by decide)⟩

/-- Claim C10 (confirmed): Challenge request decoding ignores the reserved
byte: two 34-byte inputs differing only at index 1 decode to identical
results. -/
theorem c10_reserved_byte_ignored (x b1 b2 addr : Nat) (t : List Nat)
    (_ht : t.length = 32) (a : Arena) :
    ChallengeRequest.from_wire ⟨addr, x :: b1 :: t⟩ a
      = ChallengeRequest.from_wire ⟨addr, x :: b2 :: t⟩ a := by
  simp only [ChallengeRequest.from_wire, read_le_u8_cons]

/-- Claim C10 (witness): the theorem at reserved bytes 0 and 255 around the
same slot and nonce. -/
theorem c10_reserved_byte_ignored_witness :
    ChallengeRequest.from_wire ⟨0, 1 :: 0 :: List.replicate 32 7⟩ ⟨0⟩
      = ChallengeRequest.from_wire ⟨0, 1 :: 255 :: List.replicate 32 7⟩ ⟨0⟩ :=
  c10_reserved_byte_ignored 1 0 255 0 (List.replicate 32 7) (by simp) ⟨0⟩

/-! Length characterizations of the decoders on short inputs, for the
truncation-safety claim. -/

theorem rawError_from_wire_short (s : Slice) (h : s.data.length < 5) :
    (RawError.from_wire s).1 = .error .BufferExhausted := by
  rcases s with ⟨addr, data⟩
  rcases data with _ | ⟨b0, rest⟩
  · simp [RawError.from_wire, Slice.read_le_u8, Slice.read_bytes, ioToWire]
  · have hr : rest.length < 4 := by simp at h; omega
    simp only [RawError.from_wire, read_le_u8_cons]
    rw [read_bytes_err ⟨addr + 1, rest⟩ 4 (by simpa using hr)]
    simp [ioToWire]

theorem error_from_wire_short (s : Slice) (h : s.data.length < 5) :
    (Error.from_wire (E := ChallengeError) s).1 = .error .BufferExhausted := by
  unfold Error.from_wire
  rcases hw : RawError.from_wire s with ⟨r, s'⟩
  have h1 := rawError_from_wire_short s h
  rw [hw] at h1
  have hr : r = .error .BufferExhausted := h1
  subst hr
  simp

theorem challengeRequest_from_wire_short (s : Slice) (a : Arena)
    (h : s.data.length < 34) :
    (ChallengeRequest.from_wire s a).1 = .error .BufferExhausted := by
  rcases s with ⟨addr, data⟩
  rcases data with _ | ⟨b0, _ | ⟨b1, rest⟩⟩
  · simp [ChallengeRequest.from_wire, Slice.read_le_u8, Slice.read_bytes,
      ioToWire]
  · simp [ChallengeRequest.from_wire, Slice.read_le_u8, Slice.read_bytes,
      ioToWire]
  · have hr : rest.length < 32 := by simp at h; omega
    simp only [ChallengeRequest.from_wire, read_le_u8_cons]
    rw [read_direct_err ⟨addr + 1 + 1, rest⟩ a 32 1 (by simpa using hr)]
    simp [ioToWire]

theorem fw_response_from_wire_short (s : Slice) (a : Arena)
    (h : s.data.length < 32) (hcap : 32 ≤ a.cap) :
    (FirmwareVersionResponse.from_wire s a).1 = .error .BufferExhausted := by
  unfold FirmwareVersionResponse.from_wire
  rw [show a.alloc_raw 32 = some ⟨a.cap - 32⟩ from by
    simp [Arena.alloc_raw, hcap]]
  simp only []
  rw [read_bytes_err s 32 h]
  simp [ioToWire]

theorem tbs_from_wire_short (s : Slice) (a : Arena) (h : s.data.length < 40) :
    (ChallengeResponseTbs.from_wire s a).1 = .error .BufferExhausted := by
  rcases s with ⟨addr, data⟩
  rcases data with _ | ⟨b0, _ | ⟨b1, _ | ⟨b2, _ | ⟨b3, _ | ⟨b4, _ | ⟨b5, rest⟩⟩⟩⟩⟩⟩
  · simp [ChallengeResponseTbs.from_wire, Slice.read_le_u8, Slice.read_le_u16,
      Slice.read_bytes, ioToWire]
  · simp [ChallengeResponseTbs.from_wire, Slice.read_le_u8, Slice.read_le_u16,
      Slice.read_bytes, ioToWire]
  · simp [ChallengeResponseTbs.from_wire, Slice.read_le_u8, Slice.read_le_u16,
      Slice.read_bytes, ioToWire]
  · simp [ChallengeResponseTbs.from_wire, Slice.read_le_u8, Slice.read_le_u16,
      Slice.read_bytes, ioToWire]
  · simp [ChallengeResponseTbs.from_wire, Slice.read_le_u8, Slice.read_le_u16,
      Slice.read_bytes, ioToWire]
  · simp [ChallengeResponseTbs.from_wire, Slice.read_le_u8, Slice.read_le_u16,
      Slice.read_bytes, ioToWire]
  · have hrest : rest.length < 34 := by simp at h; omega
    simp only [ChallengeResponseTbs.from_wire, read_le_u8_cons,
      read_le_u16_cons]
    by_cases h32 : rest.length < 32
    · rw [read_direct_err ⟨addr + 1 + 1 + 1 + 1 + 2, rest⟩ a 32 1
        (by simpa using h32)]
      simp [ioToWire]
    · push_neg at h32
      rw [read_direct_one_ok ⟨addr + 1 + 1 + 1 + 1 + 2, rest⟩ a 32
        (by simpa using h32)]
      simp only []
      by_cases hz : (rest.drop 32).length < 1
      · rw [read_le_u8_err ⟨addr + 1 + 1 + 1 + 1 + 2 + 32, rest.drop 32⟩
          (by simpa using hz)]
        simp [ioToWire]
      · push_neg at hz
        rw [read_le_u8_ok ⟨addr + 1 + 1 + 1 + 1 + 2 + 32, rest.drop 32⟩
          (by simpa using hz)]
        simp only []
        rw [read_le_u8_err
          ⟨addr + 1 + 1 + 1 + 1 + 2 + 32 + 1, (rest.drop 32).tail⟩
          (by simp; omega)]
        simp [ioToWire]

/-- A TBS decode whose header reads all succeed but whose pmr0 byte count
falls short of the length byte fails with `BufferExhausted`. -/
theorem tbs_from_wire_structured_err (addr : Nat) (a : Arena)
    (slotv maskv p1 p2 comp plen : Nat) (nonce R : List Nat)
    (hn : nonce.length = 32) (hR : R.length < plen) :
    (ChallengeResponseTbs.from_wire
        ⟨addr, slotv :: maskv :: p1 :: p2 :: 0 :: 0
               :: (nonce ++ comp :: plen :: R)⟩ a).1
      = .error .BufferExhausted := by
  simp only [ChallengeResponseTbs.from_wire, read_le_u8_cons, read_le_u16_cons]
  rw [read_direct_one_exact (addr + 1 + 1 + 1 + 1 + 2) nonce
    (comp :: plen :: R) a 32 hn]
  simp only [read_le_u8_cons]
  rw [read_direct_err ⟨addr + 1 + 1 + 1 + 1 + 2 + 32 + 1 + 1, R⟩ a plen 1
    (by simpa using hR)]
  simp [ioToWire]

/-- A `ChallengeResponse` decode fails with `BufferExhausted` whenever its
TBS part does. -/
theorem challengeResponse_err_of_tbs_err (s : Slice) (a : Arena)
    (h : (ChallengeResponseTbs.from_wire s a).1 = .error .BufferExhausted) :
    (ChallengeResponse.from_wire s a).1 = .error .BufferExhausted := by
  unfold ChallengeResponse.from_wire
  rcases hw : ChallengeResponseTbs.from_wire s a with ⟨r, s', a'⟩
  rw [hw] at h
  have hr : r = .error .BufferExhausted := h
  subst hr
  simp

set_option maxRecDepth 8000 in
/-- Claim C4 (counterexample): the 49-byte challenge response test vector,
truncated to its first 48 bytes, still decodes successfully (with a
signature one byte shorter), because the signature field consumes whatever
remains; the prefix neither fails nor reports `BufferExhausted`. -/
theorem c4_truncation_counterexample :
    (ChallengeResponse.from_wire
        ⟨0, (([1, 255, 5, 7, 0, 0] ++ List.replicate 32 221 ++ [10, 4]
              ++ [112, 109, 114, 48]
              ++ [101, 99, 100, 115, 97]).take 48)⟩ ⟨0⟩).1
      = .ok ⟨⟨1, 255, (5, 7), List.replicate 32 221, 10, [112, 109, 114, 48]⟩,
             [101, 99, 100, 115]⟩ := by
  decide

/-- Claim C4 (amended): every strict prefix of a valid encoded Challenge
request, FirmwareVersion request, FirmwareVersion response, RawError or
Error message makes the decoder fail with `BufferExhausted`; for the
Challenge response the same holds for every prefix shorter than the full
TBS portion (40 bytes of fixed fields plus the pmr0 bytes) — prefixes
containing the whole TBS portion decode successfully with a truncated
signature, as the counterexample shows, because the signature field is
defined to consume the rest of the input. -/
theorem c4_truncation_amended :
    (∀ (slot : Nat) (nonce : List Nat), nonce.length = 32 →
      ∀ (k addr : Nat) (a : Arena), k < 34 →
        (ChallengeRequest.from_wire ⟨addr, (slot :: 0 :: nonce).take k⟩ a).1
          = .error .BufferExhausted)
    ∧ (∀ (index k addr : Nat) (a : Arena), k < 1 →
        (FirmwareVersionRequest.from_wire ⟨addr, [index].take k⟩ a).1
          = .error .BufferExhausted)
    ∧ (∀ (version : List Nat), version.length = 32 →
        ∀ (k addr : Nat) (a : Arena), k < 32 → 32 ≤ a.cap →
          (FirmwareVersionResponse.from_wire ⟨addr, version.take k⟩ a).1
            = .error .BufferExhausted)
    ∧ (∀ (bs : List Nat) (k addr : Nat), k < 5 →
        (RawError.from_wire ⟨addr, bs.take k⟩).1 = .error .BufferExhausted)
    ∧ (∀ (bs : List Nat) (k addr : Nat), k < 5 →
        (Error.from_wire (E := ChallengeError) ⟨addr, bs.take k⟩).1
          = .error .BufferExhausted)
    ∧ (∀ (t : ChallengeResponseTbs) (sig tb : List Nat),
        t.nonce.length = 32 → t.to_wire = .ok tb →
        ∀ (k addr : Nat) (a : Arena), k < 40 + t.pmr0.length →
          (ChallengeResponse.from_wire ⟨addr, (tb ++ sig).take k⟩ a).1
            = .error .BufferExhausted) := by
  refine ⟨?_, ?_, ?_, ?_, ?_, ?_⟩
  · intro slot nonce h32 k addr a hk
    apply challengeRequest_from_wire_short
    simp [h32]
    omega
  · intro index k addr a hk
    have hz : k = 0 := by omega
    subst hz
    simp [FirmwareVersionRequest.from_wire, Slice.read_le_u8,
      Slice.read_bytes, ioToWire]
  · intro version h32 k addr a hk hcap
    apply fw_response_from_wire_short _ _ _ hcap
    simp [h32]
    omega
  · intro bs k addr hk
    apply rawError_from_wire_short
    simp
    omega
  · intro bs k addr hk
    apply error_from_wire_short
    simp
    omega
  · intro t sig tb hn htw k addr a hk
    have hp : t.pmr0.length ≤ 255 := by
      by_contra hcon
      unfold ChallengeResponseTbs.to_wire at htw
      rw [if_neg hcon] at htw
      exact absurd htw (by simp)
    have htb : tb
        = [t.slot, t.slot_mask, t.protocol_range.1, t.protocol_range.2, 0, 0]
          ++ t.nonce ++ [t.pmr0_components, t.pmr0.length] ++ t.pmr0 := by
      unfold ChallengeResponseTbs.to_wire at htw
      rw [if_pos hp] at htw
      simp only [Except.ok.injEq] at htw
      exact htw.symm
    subst htb
    apply challengeResponse_err_of_tbs_err
    rcases lt_or_le k 40 with hk40 | hk40
    · apply tbs_from_wire_short
      simp
      omega
    · obtain ⟨m, rfl⟩ : ∃ m, k = 40 + m := ⟨k - 40, by omega⟩
      have hm : m < t.pmr0.length := by omega
      have hsplit :
          ((([t.slot, t.slot_mask, t.protocol_range.1, t.protocol_range.2,
              0, 0] ++ t.nonce ++ [t.pmr0_components, t.pmr0.length]
              ++ t.pmr0) ++ sig).take (40 + m))
            = t.slot :: t.slot_mask :: t.protocol_range.1
              :: t.protocol_range.2 :: 0 :: 0
              :: (t.nonce ++ t.pmr0_components :: t.pmr0.length
                  :: ((t.pmr0 ++ sig).take m)) := by
        rw [show (([t.slot, t.slot_mask, t.protocol_range.1,
              t.protocol_range.2, 0, 0] ++ t.nonce
              ++ [t.pmr0_components, t.pmr0.length] ++ t.pmr0) ++ sig)
            = ([t.slot, t.slot_mask, t.protocol_range.1, t.protocol_range.2,
                0, 0] ++ t.nonce ++ [t.pmr0_components, t.pmr0.length])
              ++ (t.pmr0 ++ sig) from by simp]
        rw [show (40 : Nat) + m
            = ([t.slot, t.slot_mask, t.protocol_range.1, t.protocol_range.2,
                0, 0] ++ t.nonce
                ++ [t.pmr0_components, t.pmr0.length]).length + m from by
          simp [hn]]
        rw [take_len_add]
        simp
      rw [hsplit]
      exact tbs_from_wire_structured_err addr a t.slot t.slot_mask
        t.protocol_range.1 t.protocol_range.2 t.pmr0_components
        t.pmr0.length t.nonce ((t.pmr0 ++ sig).take m) hn
        (by simp; omega)

/-- Claim C4 (witness): the amended theorem applied to concrete inputs: a
10-byte prefix of a Challenge request, the empty prefix of a FirmwareVersion
request, a 31-byte prefix of a FirmwareVersion response, 3-byte prefixes of
a RawError and an Error, and a 43-byte prefix of the challenge response test
vector (cutting inside the pmr0 field). -/
theorem c4_truncation_witness :
    (ChallengeRequest.from_wire
        ⟨0, ((1 : Nat) :: 0 :: List.replicate 32 119).take 10⟩ ⟨0⟩).1
      = .error .BufferExhausted
    ∧ (FirmwareVersionRequest.from_wire ⟨0, ([5] : List Nat).take 0⟩ ⟨0⟩).1
      = .error .BufferExhausted
    ∧ (FirmwareVersionResponse.from_wire
        ⟨0, (List.replicate 32 (7 : Nat)).take 31⟩ ⟨32⟩).1
      = .error .BufferExhausted
    ∧ (RawError.from_wire ⟨0, ([4, 1, 0, 0, 0] : List Nat).take 3⟩).1
      = .error .BufferExhausted
    ∧ (Error.from_wire (E := ChallengeError)
        ⟨0, ([4, 1, 0, 0, 0] : List Nat).take 3⟩).1
      = .error .BufferExhausted
    ∧ (ChallengeResponse.from_wire
        ⟨0, ((([1, 255, 5, 7, 0, 0] ++ List.replicate 32 221 ++ [10, 4]
              ++ [112, 109, 114, 48]) ++ [101, 99, 100, 115, 97]).take 43)⟩
        ⟨0⟩).1
      = .error .BufferExhausted :=
  ⟨c4_truncation_amended.1 1 (List.replicate 32 119) (by simp) 10 0 ⟨0⟩
    (by omega),
   c4_truncation_amended.2.1 5 0 0 ⟨0⟩ (by omega),
   c4_truncation_amended.2.2.1 (List.replicate 32 7) (by simp) 31 0 ⟨32⟩
    (by omega) (by simp),
   c4_truncation_amended.2.2.2.1 [4, 1, 0, 0, 0] 3 0 (by omega),
   c4_truncation_amended.2.2.2.2.1 [4, 1, 0, 0, 0] 3 0 (by omega),
   c4_truncation_amended.2.2.2.2.2
    ⟨1, 255, (5, 7), List.replicate 32 221, 10, [112, 109, 114, 48]⟩
    [101, 99, 100, 115, 97]
    ([1, 255, 5, 7, 0, 0] ++ List.replicate 32 221 ++ [10, 4]
      ++ [112, 109, 114, 48])
    (by simp) (by decide) 43 0 ⟨0⟩ (by decide)⟩

end Manticore
